import Mathlib

/-!
Shallow embedding of the ender-wellplate-doser dosing orchestration code:
the pump arithmetic and command channel of hardwareInterfaces.py, the
run_dosing orchestrator of dosingExecuter.py, the DosingExecutor sequencer
of dosing_run.py, and the plan validation of doserGUI.py.

Volumes and machine coordinates are modelled as rationals.  Every
hardware-facing call is modelled as an event, and every orchestration
routine as the list of events it emits, so that ordering and
before-any-hardware-command properties are statements about event traces.
-/

namespace EnderDoser

/-! ### Association lists (the Python dict operations used by the source) -/

/-- Python `d.get(key)` / `d[key]` lookup on an association list. -/
def assocLookup {β : Type} (xs : List (String × β)) (lab : String) : Option β :=
  match xs with
  | [] => none
  | p :: rest => if p.1 = lab then some p.2 else assocLookup rest lab

/-- `defaultdict(list)` / `dict.setdefault(lab, []).append(x)`: append `x` to
the bucket of key `lab`, creating the bucket at the end (Python dicts keep
insertion order) when the key is new. -/
def addToGroup {α : Type} (acc : List (String × List α)) (lab : String) (x : α) :
    List (String × List α) :=
  match acc with
  | [] => [(lab, [x])]
  | (l, xs) :: rest =>
    if l = lab then (l, xs ++ [x]) :: rest else (l, xs) :: addToGroup rest lab x

/-- Python `d.get(lab, [])` on a grouped association list. -/
def getGroup {α : Type} (acc : List (String × List α)) (lab : String) : List α :=
  match acc with
  | [] => []
  | (l, xs) :: rest => if l = lab then xs else getGroup rest lab

/-! ### hardwareInterfaces.py — pump calibration arithmetic -/

/-- hardwareInterfaces.withdraw, line 78:
calibratedWithdrawVol = withdrawVol + .0344, the volume the function
hands to withdrawDuration at the configured flow rate when it is invoked
with a volume argument.  (run_dosing never invokes it successfully: its
one-argument call raises TypeError, see perWellRun below.) -/
def calibratedWithdrawVol (withdrawVol : ℚ) : ℚ := withdrawVol + 43/1250

/-- hardwareInterfaces.infuse, line 87:
calibratedInfuseVol = infuseVol + .0344, the volume the function hands to
infuseDuration at the configured flow rate when it is invoked with a
volume argument.  (run_dosing never invokes it successfully: its
one-argument call raises TypeError, see perWellRun below.) -/
def calibratedInfuseVol (infuseVol : ℚ) : ℚ := infuseVol + 43/1250

/-! ### hardwareInterfaces.py — command channel -/

/-- Outcome of the acknowledgment loop in hardwareInterfaces.command run
against a (finite prefix of a) stream of response lines: either the loop
breaks after consuming `consumed` lines because a line starting with "ok"
arrived, or the whole stream is consumed and the loop is still blocked
waiting for more input. -/
inductive CmdOutcome where
  | ack (consumed : Nat)
  | blocked
deriving DecidableEq

/-- Python `line.startswith("ok")`: the first two characters of the line
are "ok". -/
def startsWithOk (line : String) : Bool :=
  match line.toList with
  | 'o' :: 'k' :: _ => true
  | _ => false

/-- hardwareInterfaces.command, lines 20-31: after writing the instruction,
loop reading lines until one begins with "ok".  There is no deadline
parameter and no error outcome in the source. -/
def commandRun : List String → CmdOutcome
  | [] => .blocked
  | l :: ls =>
    if startsWithOk l then .ack 1
    else
      match commandRun ls with
      | .ack n => .ack (n + 1)
      | .blocked => .blocked

/-! ### dosingExecuter.py — events and constants -/

/-- One hardware-facing action of the dosingExecuter orchestrator: the
G-code commands issued through hw.command plus the two pump actions. -/
inductive GEv where
  | home
  | mmUnits
  | absoluteMode
  | zSpeedLimit
  | sleepEv (seconds : ℚ)
  | linearZ (z : ℚ) (feed : Nat)
  | linearXY (x y : ℚ) (feed : Nat)
  | barrier
  | withdrawAct (vol : ℚ)
  | infuseAct (vol : ℚ)
deriving DecidableEq

/-- dosingExecuter.py line 59: safe travel Z for XY moves. -/
def TRAVEL_Z : ℚ := 30

/-- dosingExecuter.py line 60: approach Z for dispensing in wells. -/
def DOSE_Z : ℚ := 0

/-- dosingExecuter.py line 61: approach Z in reservoir for aspiration. -/
def ASPIRATE_Z : ℚ := 0

/-- dosingExecuter.py line 62: XY feed. -/
def F_XY : Nat := 12000

/-- dosingExecuter.py line 63: Z feed. -/
def F_Z : Nat := 9000

/-- dosingExecuter.py lines 49-56: reservoir XY per fluid label. -/
def FLUID_RESERVOIRS : List (String × (ℚ × ℚ)) := [("A", (1883/50, 196))]

/-- hardwareInterfaces.moveTo, lines 33-51: lift to zlift, XY move, final Z,
each followed by an M400 motion-queue barrier, all at the same speed. -/
def moveToTrace (x y z zlift : ℚ) (speed : Nat) : List GEv :=
  [.linearZ zlift speed, .barrier, .linearXY x y speed, .barrier, .linearZ z speed, .barrier]

/-- hardwareInterfaces.dosePositioning, lines 53-60: move Z only, then an
M400 barrier. -/
def dosePosTrace (z : ℚ) (speed : Nat) : List GEv :=
  [.linearZ z speed, .barrier]

/-! ### dosingExecuter.py — plan model and helpers -/

/-- One entry of the GUI dosing plan: well id (absent entries fall back to
"row,col"), zero-based row and column, and the fluid label to volume map
(a Python dict, i.e. an ordered association list). -/
structure PlanEntry where
  well_id : Option String
  row : Nat
  col : Nat
  volumes_uL : List (String × ℚ)
deriving DecidableEq

/-- The per-fluid well record built by group_plan_by_fluid (lines 90-92). -/
structure GroupedWell where
  row : Nat
  col : Nat
  well_id : String
  volume_uL : ℚ
deriving DecidableEq

/-- The Python sort key `(e.row, e.col)` as a relation on grouped wells. -/
def wellLE (a b : GroupedWell) : Prop :=
  a.row < b.row ∨ (a.row = b.row ∧ a.col ≤ b.col)

instance : DecidableRel wellLE := fun a b =>
  inferInstanceAs (Decidable (a.row < b.row ∨ (a.row = b.row ∧ a.col ≤ b.col)))

instance : IsTotal GroupedWell wellLE :=
  ⟨by intro a b; unfold wellLE; omega⟩

instance : IsTrans GroupedWell wellLE :=
  ⟨by intro a b c; unfold wellLE; omega⟩

/-- dosingExecuter.well_to_xy, lines 68-75: convert (row, col) to stage XY
using the A1 origin and pitch. -/
def well_to_xy (row col : Nat) (a1_x a1_y pitch_x pitch_y : ℚ) : ℚ × ℚ :=
  (a1_x + (col : ℚ) * pitch_x, a1_y + (row : ℚ) * pitch_y)

/-- dosingExecuter.group_plan_by_fluid, lines 78-96: build a fluid-keyed
dict of well records for every positive volume, then sort each bucket by
(row, col).  The dict keeps first-occurrence key order. -/
def group_plan_by_fluid (plan : List PlanEntry) : List (String × List GroupedWell) :=
  let raw := plan.foldl (fun acc e =>
    e.volumes_uL.foldl (fun acc2 p =>
      if 0 < p.2 then
        addToGroup acc2 p.1
          ⟨e.row, e.col, e.well_id.getD (toString e.row ++ "," ++ toString e.col), p.2⟩
      else acc2) acc) []
  raw.map (fun g => (g.1, List.insertionSort wellLE g.2))

/-- dosingExecuter.validate_reservoirs, lines 133-137: the complete list of
fluid labels grouped from the plan that have no reservoir coordinates. -/
def missingReservoirList (reservoirs : List (String × (ℚ × ℚ)))
    (byFluid : List (String × List GroupedWell)) : List String :=
  (byFluid.map (fun g => g.1)).filter (fun lab => (assocLookup reservoirs lab).isNone)

/-- An error aborting run_dosing: either the validate_reservoirs failure
carrying the full list of missing fluid labels, or the TypeError raised
by the one-argument pump calls — dosingExecuter calls hw.withdraw(pickup)
and hw.infuse(v), but hardwareInterfaces.withdraw(pump, withdrawVol, ...)
and infuse(pump, infuseVol, ...) have no default for the volume
parameter, so the volume is bound to the pump parameter and the required
volume argument is missing. -/
inductive RunError where
  | missingReservoirs (labs : List String)
  | typeErrorMissingVolumeArg
deriving DecidableEq

/-- The per-well body of run_dosing, lines 197-227.  The code computes
the well XY and pickup = v + max(0, overdraw) (lines 198-201, pure
computation with no hardware effect), moves to the reservoir and descends
(lines 204-205), and then calls hw.withdraw(pickup) (line 207).
hardwareInterfaces.withdraw is withdraw(pump, withdrawVol, ...) with no
default for withdrawVol, so the one-argument call binds pickup to the
pump parameter, leaves withdrawVol missing and raises TypeError: the
cycle aborts here.  The rest of the cycle — lift, move to the well,
descend, the equally miswired hw.infuse(v) of line 221, lift — is never
reached, so no pump action ever receives a volume. -/
def perWellRun (a1_x a1_y pitch_x pitch_y overdraw_uL : ℚ) (resXY : ℚ × ℚ)
    (w : GroupedWell) : List GEv × Option RunError :=
  let _wxy := well_to_xy w.row w.col a1_x a1_y pitch_x pitch_y
  let _pickup := w.volume_uL + max 0 overdraw_uL
  (moveToTrace resXY.1 resXY.2 TRAVEL_Z TRAVEL_Z F_XY ++ dosePosTrace ASPIRATE_Z F_Z,
   some .typeErrorMissingVolumeArg)

/-- Exception propagation through the nested loops of run_dosing,
lines 193-227: per-well actions run in order, and the first raised error
aborts the remaining iterations (run_dosing has no try/except). -/
def runSeq : List (List GEv × Option RunError) → List GEv × Option RunError
  | [] => ([], none)
  | (tr, some e) :: _ => (tr, some e)
  | (tr, none) :: rest => (tr ++ (runSeq rest).1, (runSeq rest).2)

/-- dosingExecuter.run_dosing, lines 164-229, with the plate coordinates
already resolved.  Returns the emitted hardware event trace together with
the error, if any.  A validation error is raised before any hardware
command, so the trace is empty in that case; on a validated plan with at
least one positive-volume well the startup sequence runs and the
per-well loop aborts at its first pump call with the TypeError modelled
in perWellRun. -/
def run_dosing (reservoirs : List (String × (ℚ × ℚ)))
    (a1_x a1_y pitch_x pitch_y overdraw_uL : ℚ) (plan : List PlanEntry) :
    List GEv × Option RunError :=
  let byFluid := group_plan_by_fluid plan
  if byFluid.isEmpty then ([], none)
  else
    let missing := missingReservoirList reservoirs byFluid
    if missing.isEmpty then
      let body := runSeq (byFluid.flatMap (fun g =>
        g.2.map (perWellRun a1_x a1_y pitch_x pitch_y overdraw_uL
          ((assocLookup reservoirs g.1).getD (0, 0)))))
      ([.home, .mmUnits, .absoluteMode, .zSpeedLimit, .sleepEv (1/10),
        .linearZ TRAVEL_Z F_Z, .barrier] ++ body.1, body.2)
    else ([], some (.missingReservoirs missing))

/-- The volumes carried by the withdraw pump actions of a trace. -/
def withdrawVols (tr : List GEv) : List ℚ :=
  tr.filterMap (fun ev => match ev with | .withdrawAct v => some v | _ => none)

/-- The volumes carried by the infuse pump actions of a trace. -/
def infuseVols (tr : List GEv) : List ℚ :=
  tr.filterMap (fun ev => match ev with | .infuseAct v => some v | _ => none)

/-! ### doserGUI.py — per-well plan validation (begin_dosing) -/

/-- One well of the GUI model: well id, zero-based row and column, and the
fluid label to volume map. -/
structure GuiWell where
  well_id : String
  row : Nat
  col : Nat
  volumes : List (String × ℚ)
deriving DecidableEq

/-- doserGUI.DosingModel.total_volume: the sum of all source volumes of a
well. -/
def total_volume (w : GuiWell) : ℚ := (w.volumes.map (fun p => p.2)).sum

/-- doserGUI.begin_dosing, lines 483-488: collect every well whose total
volume exceeds the maximum, together with its total. -/
def overMaxErrors (wells : List GuiWell) (max_vol : ℚ) : List (String × ℚ) :=
  wells.filterMap (fun w =>
    if max_vol < total_volume w then some (w.well_id, total_volume w) else none)

/-- doserGUI.build_dosing_plan, lines 502-518: keep only wells with
positive total volume (pixel centers are dropped by the core). -/
def build_dosing_plan (wells : List GuiWell) : List PlanEntry :=
  wells.filterMap (fun w =>
    if total_volume w ≤ 0 then none
    else some ⟨some w.well_id, w.row, w.col, w.volumes⟩)

/-- An error of the GUI-mediated dosing pipeline: either the begin_dosing
max-volume validation failure, or an error from run_dosing. -/
inductive GuiErr where
  | overMax (errs : List (String × ℚ))
  | run (e : RunError)
deriving DecidableEq

/-- The GUI-mediated pipeline (the cited begin_dosing, lines 481-500,
composed with run_dosing): begin_dosing validates all wells against the
maximum and refuses to hand a plan to the backend on any violation, so no
hardware command is ever issued in that case; otherwise the built plan is
run by run_dosing. -/
def begin_dosing (wells : List GuiWell) (max_vol : ℚ)
    (reservoirs : List (String × (ℚ × ℚ)))
    (a1_x a1_y pitch_x pitch_y overdraw_uL : ℚ) : List GEv × Option GuiErr :=
  let errors := overMaxErrors wells max_vol
  if errors.isEmpty then
    let plan := build_dosing_plan wells
    let r := run_dosing reservoirs a1_x a1_y pitch_x pitch_y overdraw_uL plan
    (r.1, r.2.map .run)
  else ([], some (.overMax errors))

/-! ### dosing_run.py — data model -/

/-- dosing_run.Reservoir. -/
structure Reservoir where
  label : String
  x_mm : ℚ
  y_mm : ℚ
  z_aspirate_mm : ℚ
  z_clear_mm : ℚ
deriving DecidableEq

/-- dosing_run.PlateLayout. -/
structure PlateLayout where
  name : String
  rows : Nat
  cols : Nat
  a1_x_mm : ℚ
  a1_y_mm : ℚ
  col_pitch_mm : ℚ
  row_pitch_mm : ℚ
  y_positive_down : Bool
deriving DecidableEq

/-- dosing_run.DosingConfig. -/
structure DosingConfig where
  plate_clear_z_mm : ℚ
  plate_dispense_z_mm : ℚ
  travel_feedrate : Nat
  z_feedrate : Nat
  swirl_feedrate : Nat
  reservoir_swirly_radius_mm : ℚ
  reservoir_swirly_loops : Nat
  pump_withdraw_rate_ul_s : ℚ
  pump_infuse_rate_ul_s : ℚ
  delay_after_withdraw_s : ℚ
  delay_after_dispense_s : ℚ
deriving DecidableEq

/-- The default values of dosing_run.DosingConfig, lines 41-57. -/
def defaultConfig : DosingConfig :=
  ⟨10, 2, 3000, 800, 1200, 3/2, 1, 50, 50, 1/5, 1/5⟩

/-- One call of DosingExecutor on the motion/pump abstraction. -/
inductive MEv where
  | connectPump
  | connectMover
  | goZ (z : ℚ) (feed : Nat)
  | goXY (x y : ℚ) (feed : Nat)
  | pumpWithdraw (vol rate : ℚ)
  | pumpInfuse (vol rate : ℚ)
  | dwellFor (seconds : ℚ)
  | swirly (cx cy z radius : ℚ) (loops : Nat) (feed : Nat)
deriving DecidableEq

/-- dosing_run._well_xy_mm, lines 233-243: dx = col * col_pitch,
dy = row * row_pitch negated when y_positive_down is false, added to the
A1 origin. -/
def wellXYmm (layout : PlateLayout) (row col : Nat) : ℚ × ℚ :=
  let dx := (col : ℚ) * layout.col_pitch_mm
  let dy0 := (row : ℚ) * layout.row_pitch_mm
  let dy := if layout.y_positive_down then dy0 else -dy0
  (layout.a1_x_mm + dx, layout.a1_y_mm + dy)

/-! ### dosing_run.py — per-well cycle -/

/-- dosing_run._move_to_reservoir_clear, lines 143-145. -/
def moveToReservoirClear (cfg : DosingConfig) (res : Reservoir) : List MEv :=
  [.goZ res.z_clear_mm cfg.z_feedrate, .goXY res.x_mm res.y_mm cfg.travel_feedrate]

/-- dosing_run._aspirate_from_reservoir, lines 147-155: descend, withdraw,
dwell when the configured delay is positive, lift to clear. -/
def aspirateFromReservoir (cfg : DosingConfig) (res : Reservoir) (volume_ul : ℚ) :
    List MEv :=
  [.goZ res.z_aspirate_mm cfg.z_feedrate,
   .pumpWithdraw volume_ul cfg.pump_withdraw_rate_ul_s]
    ++ (if 0 < cfg.delay_after_withdraw_s then [.dwellFor cfg.delay_after_withdraw_s] else [])
    ++ [.goZ res.z_clear_mm cfg.z_feedrate]

/-- dosing_run._swirl_at_reservoir, lines 157-166: the swirl is centered at
the reservoir XY, at the reservoir clear height. -/
def swirlAtReservoir (cfg : DosingConfig) (res : Reservoir) : List MEv :=
  [.swirly res.x_mm res.y_mm res.z_clear_mm cfg.reservoir_swirly_radius_mm
    cfg.reservoir_swirly_loops cfg.swirl_feedrate]

/-- dosing_run._move_to_well_clear, lines 168-171. -/
def moveToWellClear (cfg : DosingConfig) (x_mm y_mm : ℚ) : List MEv :=
  [.goZ cfg.plate_clear_z_mm cfg.z_feedrate, .goXY x_mm y_mm cfg.travel_feedrate]

/-- dosing_run._dispense_into_well, lines 173-181: descend, infuse, dwell
when the configured delay is positive, lift to clear. -/
def dispenseIntoWell (cfg : DosingConfig) (volume_ul : ℚ) : List MEv :=
  [.goZ cfg.plate_dispense_z_mm cfg.z_feedrate,
   .pumpInfuse volume_ul cfg.pump_infuse_rate_ul_s]
    ++ (if 0 < cfg.delay_after_dispense_s then [.dwellFor cfg.delay_after_dispense_s] else [])
    ++ [.goZ cfg.plate_clear_z_mm cfg.z_feedrate]

/-- The per-well cycle of DosingExecutor.run, lines 116-137, steps 1-5:
reservoir clear, aspirate, swirl, well clear, dispense. -/
def perWellCycle (cfg : DosingConfig) (res : Reservoir) (x_mm y_mm volume_ul : ℚ) :
    List MEv :=
  moveToReservoirClear cfg res
    ++ aspirateFromReservoir cfg res volume_ul
    ++ swirlAtReservoir cfg res
    ++ moveToWellClear cfg x_mm y_mm
    ++ dispenseIntoWell cfg volume_ul

/-! ### dosing_run.py — plan parsing, ordering and grouping -/

/-- A raw plan entry before _parse_plan: any of row, col or volumes_uL may
be missing. -/
structure RawEntry where
  well_id : Option String
  row : Option Nat
  col : Option Nat
  volumes_uL : Option (List (String × ℚ))
deriving DecidableEq

/-- dosing_run._parse_plan, lines 191-209: keep exactly the entries that
carry row, col and volumes_uL. -/
def parsePlan (raw : List RawEntry) : List PlanEntry :=
  raw.filterMap (fun e =>
    match e.row, e.col, e.volumes_uL with
    | some r, some c, some vols => some ⟨e.well_id, r, c, vols⟩
    | _, _, _ => none)

/-- dosing_run._infer_sources_order, lines 211-215: every label appearing
in any volumes_uL map, deduplicated (a Python set) and sorted. -/
def inferSourcesOrder (entries : List PlanEntry) : List String :=
  List.insertionSort (fun a b : String => a ≤ b)
    ((entries.flatMap (fun e => e.volumes_uL.map (fun p => p.1))).dedup)

/-- Python `entry["volumes_uL"].get(label, 0.0)`. -/
def lookupVol (e : PlanEntry) (lab : String) : ℚ :=
  (assocLookup e.volumes_uL lab).getD 0

/-- The Python sort key `(x["row"], x["col"])` as a relation on entries. -/
def entryLE (a b : PlanEntry) : Prop :=
  a.row < b.row ∨ (a.row = b.row ∧ a.col ≤ b.col)

instance : DecidableRel entryLE := fun a b =>
  inferInstanceAs (Decidable (a.row < b.row ∨ (a.row = b.row ∧ a.col ≤ b.col)))

instance : IsTotal PlanEntry entryLE :=
  ⟨by intro a b; unfold entryLE; omega⟩

instance : IsTrans PlanEntry entryLE :=
  ⟨by intro a b c; unfold entryLE; omega⟩

/-- dosing_run._group_wells_by_source, lines 217-231: append each entry to
the bucket of every label it references with positive volume, then sort
each bucket by (row, col). -/
def groupWellsBySource (entries : List PlanEntry) : List (String × List PlanEntry) :=
  let raw := entries.foldl (fun acc e =>
    e.volumes_uL.foldl (fun acc2 p =>
      if 0 < p.2 then addToGroup acc2 p.1 e else acc2) acc) []
  raw.map (fun g => (g.1, List.insertionSort entryLE g.2))

/-- The per-(fluid, well) cycles performed by DosingExecutor.run,
lines 100-137: for each label of the processing order, skip it when it has
no reservoir, then for each grouped well with positive volume of the label
run one per-well cycle at the well coordinates. -/
def runCycles (sources : List (String × Reservoir)) (layout : PlateLayout)
    (cfg : DosingConfig) (entries : List PlanEntry) (order : List String) :
    List (String × PlanEntry × List MEv) :=
  order.flatMap (fun lab =>
    match assocLookup sources lab with
    | none => []
    | some res =>
      (getGroup (groupWellsBySource entries) lab).flatMap (fun e =>
        if lookupVol e lab ≤ 0 then []
        else
          [(lab, e, perWellCycle cfg res (wellXYmm layout e.row e.col).1
              (wellXYmm layout e.row e.col).2 (lookupVol e lab))]))

/-- dosing_run._ensure_connected, lines 185-189. -/
def ensureConnected (pumpConnected moverConnected : Bool) : List MEv :=
  (if pumpConnected then [] else [.connectPump])
    ++ (if moverConnected then [] else [.connectMover])

/-- dosing_run.DosingExecutor.run, lines 78-139: parse the plan, return at
once on an empty result, otherwise ensure connections, infer the order
when none is supplied, and run the per-(fluid, well) cycles. -/
def execRun (pumpConnected moverConnected : Bool)
    (sources : List (String × Reservoir)) (layout : PlateLayout)
    (cfg : DosingConfig) (rawPlan : List RawEntry)
    (sourcesOrder : Option (List String)) : List MEv :=
  let entries := parsePlan rawPlan
  if entries.isEmpty then []
  else
    let order := sourcesOrder.getD (inferSourcesOrder entries)
    ensureConnected pumpConnected moverConnected
      ++ (runCycles sources layout cfg entries order).flatMap (fun c => c.2.2)

/-! ### Helper lemmas on the grouping folds -/

theorem getGroup_addToGroup_self {α : Type} (acc : List (String × List α)) (lab : String)
    (x : α) : getGroup (addToGroup acc lab x) lab = getGroup acc lab ++ [x] := by
  induction acc with
  | nil => simp [addToGroup, getGroup]
  | cons p rest ih =>
    obtain ⟨l, xs⟩ := p
    by_cases h : l = lab <;> simp [addToGroup, getGroup, h, ih]

theorem getGroup_addToGroup_ne {α : Type} (acc : List (String × List α)) (lab lab' : String)
    (x : α) (h : lab' ≠ lab) :
    getGroup (addToGroup acc lab x) lab' = getGroup acc lab' := by
  induction acc with
  | nil => simp [addToGroup, getGroup, Ne.symm h]
  | cons p rest ih =>
    obtain ⟨l, xs⟩ := p
    by_cases hl : l = lab
    · subst hl
      simp [addToGroup, getGroup, Ne.symm h]
    · by_cases hl' : l = lab'
      · subst hl'
        simp [addToGroup, getGroup, hl]
      · simp [addToGroup, getGroup, hl, hl', ih]

theorem mem_keys_addToGroup {α : Type} (acc : List (String × List α)) (lab lab' : String)
    (x : α) :
    lab' ∈ (addToGroup acc lab x).map Prod.fst ↔ lab' ∈ acc.map Prod.fst ∨ lab' = lab := by
  induction acc with
  | nil => simp [addToGroup]
  | cons p rest ih =>
    obtain ⟨l, xs⟩ := p
    by_cases h : l = lab <;> simp [addToGroup, h, ih] <;> tauto

/-- Keys added by the inner fold over one volumes map: exactly the labels
carried with positive volume. -/
theorem mem_keys_volFold {α : Type} (g : String × ℚ → α) (items : List (String × ℚ))
    (acc : List (String × List α)) (lab : String) :
    lab ∈ ((items.foldl (fun acc2 p => if 0 < p.2 then addToGroup acc2 p.1 (g p) else acc2)
        acc).map Prod.fst)
      ↔ lab ∈ acc.map Prod.fst ∨ ∃ p ∈ items, p.1 = lab ∧ 0 < p.2 := by
  induction items generalizing acc with
  | nil => simp
  | cons p rest ih =>
    simp only [List.foldl_cons]
    by_cases h : 0 < p.2
    · rw [if_pos h, ih, mem_keys_addToGroup]
      simp only [List.mem_cons]
      constructor
      · rintro (⟨h1 | h1⟩ | ⟨q, hq, h2, h3⟩)
        · exact Or.inl h1
        · exact Or.inr ⟨p, Or.inl rfl, h1.symm, h⟩
        · exact Or.inr ⟨q, Or.inr hq, h2, h3⟩
      · rintro (h1 | ⟨q, hq | hq, h2, h3⟩)
        · exact Or.inl (Or.inl h1)
        · subst hq; exact Or.inl (Or.inr h2.symm)
        · exact Or.inr ⟨q, hq, h2, h3⟩
    · rw [if_neg h, ih]
      simp only [List.mem_cons]
      constructor
      · rintro (h1 | ⟨q, hq, h2, h3⟩)
        · exact Or.inl h1
        · exact Or.inr ⟨q, Or.inr hq, h2, h3⟩
      · rintro (h1 | ⟨q, hq | hq, h2, h3⟩)
        · exact Or.inl h1
        · subst hq; exact absurd h3 h
        · exact Or.inr ⟨q, hq, h2, h3⟩

/-- Keys of the outer fold over plan entries. -/
theorem mem_keys_planFold {α : Type} (g : PlanEntry → String × ℚ → α)
    (plan : List PlanEntry) (acc : List (String × List α)) (lab : String) :
    lab ∈ ((plan.foldl (fun acc1 e =>
        e.volumes_uL.foldl (fun acc2 p => if 0 < p.2 then addToGroup acc2 p.1 (g e p) else acc2)
          acc1) acc).map Prod.fst)
      ↔ lab ∈ acc.map Prod.fst ∨ ∃ e ∈ plan, ∃ p ∈ e.volumes_uL, p.1 = lab ∧ 0 < p.2 := by
  induction plan generalizing acc with
  | nil => simp
  | cons e rest ih =>
    simp only [List.foldl_cons]
    rw [ih, mem_keys_volFold]
    simp only [List.mem_cons]
    constructor
    · rintro (⟨h1 | ⟨p, hp, h2, h3⟩⟩ | ⟨e1, he1, p, hp, h2, h3⟩)
      · exact Or.inl h1
      · exact Or.inr ⟨e, Or.inl rfl, p, hp, h2, h3⟩
      · exact Or.inr ⟨e1, Or.inr he1, p, hp, h2, h3⟩
    · rintro (h1 | ⟨e1, he1 | he1, p, hp, h2, h3⟩)
      · exact Or.inl (Or.inl h1)
      · subst he1; exact Or.inl (Or.inr ⟨p, hp, h2, h3⟩)
      · exact Or.inr ⟨e1, he1, p, hp, h2, h3⟩

/-- Mapping a transformation over every bucket keeps the keys. -/
theorem keys_mapValues {α β : Type} (f : List α → List β)
    (acc : List (String × List α)) :
    (acc.map (fun g => (g.1, f g.2))).map Prod.fst = acc.map Prod.fst := by
  induction acc with
  | nil => rfl
  | cons p rest ih => simp [ih]

/-- Bucket lookup commutes with mapping a transformation over every
bucket, provided the transformation fixes the empty bucket. -/
theorem getGroup_mapValues {α β : Type} (f : List α → List β) (hf : f [] = [])
    (acc : List (String × List α)) (lab : String) :
    getGroup (acc.map (fun g => (g.1, f g.2))) lab = f (getGroup acc lab) := by
  induction acc with
  | nil => simp [getGroup, hf]
  | cons p rest ih =>
    obtain ⟨l, xs⟩ := p
    by_cases h : l = lab <;> simp [getGroup, h, ih]

/-- The keys of group_plan_by_fluid are exactly the labels referenced with
positive volume somewhere in the plan. -/
theorem mem_keys_group_plan_by_fluid (plan : List PlanEntry) (lab : String) :
    lab ∈ (group_plan_by_fluid plan).map Prod.fst
      ↔ ∃ e ∈ plan, ∃ p ∈ e.volumes_uL, p.1 = lab ∧ 0 < p.2 := by
  simp only [group_plan_by_fluid]
  rw [keys_mapValues]
  exact (mem_keys_planFold _ plan [] lab).trans (by simp)

/-- A fold over a volumes map that never carries the bucket label leaves
that bucket unchanged. -/
theorem getGroup_volFold_not_mem {α : Type} (x : α) (items : List (String × ℚ))
    (acc : List (String × List α)) (lab : String) (h : ∀ p ∈ items, p.1 ≠ lab) :
    getGroup (items.foldl (fun acc2 p => if 0 < p.2 then addToGroup acc2 p.1 x else acc2) acc)
        lab = getGroup acc lab := by
  induction items generalizing acc with
  | nil => rfl
  | cons p rest ih =>
    simp only [List.foldl_cons]
    have hp : p.1 ≠ lab := h p (List.mem_cons_self p rest)
    have hrest : ∀ q ∈ rest, q.1 ≠ lab := fun q hq => h q (List.mem_cons_of_mem p hq)
    by_cases hv : 0 < p.2
    · rw [if_pos hv, ih _ hrest, getGroup_addToGroup_ne _ _ _ _ (Ne.symm hp)]
    · rw [if_neg hv, ih _ hrest]

/-- The inner fold over one volumes map with nodup keys: the bucket of
`lab` gains one copy of `x` exactly when the map carries `lab` with
positive volume. -/
theorem getGroup_volFold_const {α : Type} (x : α) (items : List (String × ℚ))
    (acc : List (String × List α)) (lab : String)
    (hnd : (items.map Prod.fst).Nodup) :
    getGroup (items.foldl (fun acc2 p => if 0 < p.2 then addToGroup acc2 p.1 x else acc2) acc)
        lab
      = getGroup acc lab
        ++ (if 0 < (assocLookup items lab).getD 0 then [x] else []) := by
  induction items generalizing acc with
  | nil => simp [assocLookup]
  | cons p rest ih =>
    rw [List.map_cons, List.nodup_cons] at hnd
    obtain ⟨hp, hndr⟩ := hnd
    simp only [List.foldl_cons]
    by_cases heq : p.1 = lab
    · subst heq
      have hrest : ∀ q ∈ rest, q.1 ≠ p.1 := by
        intro q hq hcontra
        exact hp (hcontra ▸ List.mem_map_of_mem Prod.fst hq)
      have hlk : (assocLookup (p :: rest) p.1).getD 0 = p.2 := by
        simp [assocLookup]
      rw [hlk]
      by_cases hv : 0 < p.2
      · rw [if_pos hv, if_pos hv, getGroup_volFold_not_mem _ _ _ _ hrest,
          getGroup_addToGroup_self]
      · rw [if_neg hv, if_neg hv, getGroup_volFold_not_mem _ _ _ _ hrest,
          List.append_nil]
    · rw [ih _ hndr]
      have hacc : ∀ acc0 : List (String × List α),
          getGroup (if 0 < p.2 then addToGroup acc0 p.1 x else acc0) lab
            = getGroup acc0 lab := by
        intro acc0
        by_cases hv : 0 < p.2
        · rw [if_pos hv, getGroup_addToGroup_ne _ _ _ _ (Ne.symm heq)]
        · rw [if_neg hv]
      rw [hacc]
      simp only [assocLookup, if_neg heq]

/-- The outer fold of _group_wells_by_source: the bucket of a label is the
plan-order list of entries referencing it with positive volume. -/
theorem getGroup_entriesFold (entries : List PlanEntry)
    (acc : List (String × List PlanEntry)) (lab : String)
    (hnd : ∀ e ∈ entries, (e.volumes_uL.map Prod.fst).Nodup) :
    getGroup (entries.foldl (fun acc1 e =>
        e.volumes_uL.foldl (fun acc2 p => if 0 < p.2 then addToGroup acc2 p.1 e else acc2)
          acc1) acc) lab
      = getGroup acc lab ++ entries.filter (fun e => decide (0 < lookupVol e lab)) := by
  induction entries generalizing acc with
  | nil => simp
  | cons e rest ih =>
    simp only [List.foldl_cons]
    have hin := getGroup_volFold_const e e.volumes_uL acc lab
      (hnd e (List.mem_cons_self e rest))
    have hrest : ∀ e1 ∈ rest, (e1.volumes_uL.map Prod.fst).Nodup :=
      fun e1 he1 => hnd e1 (List.mem_cons_of_mem e he1)
    rw [ih _ hrest, hin, List.filter_cons]
    by_cases hv : 0 < lookupVol e lab
    · rw [if_pos (by simpa using hv), if_pos (by simpa [lookupVol] using hv)]
      simp [List.append_assoc]
    · rw [if_neg (by simpa using hv), if_neg (by simpa [lookupVol] using hv)]
      simp

/-- The bucket of a label in _group_wells_by_source is the (row, col)
sorted list of entries referencing the label with positive volume. -/
theorem getGroup_groupWellsBySource (entries : List PlanEntry) (lab : String)
    (hnd : ∀ e ∈ entries, (e.volumes_uL.map Prod.fst).Nodup) :
    getGroup (groupWellsBySource entries) lab
      = List.insertionSort entryLE
          (entries.filter (fun e => decide (0 < lookupVol e lab))) := by
  simp only [groupWellsBySource]
  rw [getGroup_mapValues (List.insertionSort entryLE) rfl]
  rw [getGroup_entriesFold entries [] lab hnd]
  rfl

/-- A fold whose step fixes the accumulator on every element of the list
leaves the accumulator unchanged. -/
theorem foldl_no_change {β γ : Type} (step : β → γ → β) (items : List γ) (acc : β)
    (h : ∀ acc2, ∀ p ∈ items, step acc2 p = acc2) :
    items.foldl step acc = acc := by
  induction items generalizing acc with
  | nil => rfl
  | cons p rest ih =>
    simp only [List.foldl_cons]
    rw [h acc p (List.mem_cons_self p rest)]
    exact ih _ (fun acc2 q hq => h acc2 q (List.mem_cons_of_mem p hq))

/-- group_plan_by_fluid of a plan with no positive volume is empty. -/
theorem group_plan_by_fluid_eq_nil (plan : List PlanEntry)
    (h : ∀ e ∈ plan, ∀ p ∈ e.volumes_uL, p.2 ≤ 0) :
    group_plan_by_fluid plan = [] := by
  simp only [group_plan_by_fluid]
  rw [foldl_no_change _ plan []
    (fun acc1 e he => foldl_no_change _ e.volumes_uL acc1
      (fun acc2 p hp => if_neg (not_lt.mpr (h e he p hp))))]
  rfl

/-! ### Concrete fixtures used by witnesses -/

/-- The example 96-well plate layout of dosing_run.py, lines 294-303. -/
def layout96 : PlateLayout :=
  ⟨"96-well (8x12)", 8, 12, 200, 100, 9, 9, true⟩

/-- The example reservoir A of dosing_run.py, line 285. -/
def reservoirA : Reservoir := ⟨"A", 50, 20, 3/2, 8⟩

/-! ### Claims -/

/-- Claim C5: for every row, col and plate layout, the well-to-machine
coordinate function returns x = a1_x + col * col_pitch, and
y = a1_y + row * row_pitch when y_positive_down holds, else
y = a1_y - row * row_pitch.  (Purity is inherent: wellXYmm is a function
of its arguments alone.) -/
theorem claim_C5 (layout : PlateLayout) (row col : Nat) :
    wellXYmm layout row col =
      (layout.a1_x_mm + (col : ℚ) * layout.col_pitch_mm,
       if layout.y_positive_down then layout.a1_y_mm + (row : ℚ) * layout.row_pitch_mm
       else layout.a1_y_mm - (row : ℚ) * layout.row_pitch_mm) := by
  simp only [wellXYmm]
  by_cases h : layout.y_positive_down <;> simp [h, Prod.ext_iff, sub_eq_add_neg]

/-- Claim C8: with positive pitches the well-to-machine coordinate
function is affine and injective; the inverse pitch/origin formula
recovers (row, col) exactly. -/
theorem claim_C8 (layout : PlateLayout) (row col : Nat)
    (hc : 0 < layout.col_pitch_mm) (hr : 0 < layout.row_pitch_mm) :
    ((wellXYmm layout row col).1 - layout.a1_x_mm) / layout.col_pitch_mm = (col : ℚ)
    ∧ (if layout.y_positive_down
        then ((wellXYmm layout row col).2 - layout.a1_y_mm) / layout.row_pitch_mm
        else -((wellXYmm layout row col).2 - layout.a1_y_mm) / layout.row_pitch_mm)
        = (row : ℚ)
    ∧ (∀ row2 col2 : Nat,
        wellXYmm layout row2 col2 = wellXYmm layout row col → row2 = row ∧ col2 = col) := by
  have hcne : layout.col_pitch_mm ≠ 0 := ne_of_gt hc
  have hrne : layout.row_pitch_mm ≠ 0 := ne_of_gt hr
  refine ⟨?_, ?_, ?_⟩
  · simp only [wellXYmm]
    field_simp
  · by_cases h : layout.y_positive_down <;> simp only [wellXYmm, h, if_true, if_false] <;>
      field_simp
  · intro row2 col2 heq
    simp only [wellXYmm, Prod.mk.injEq] at heq
    obtain ⟨hx, hy⟩ := heq
    have hcol : (col2 : ℚ) = col := by
      have h1 : (col2 : ℚ) * layout.col_pitch_mm = (col : ℚ) * layout.col_pitch_mm := by
        linarith
      exact mul_right_cancel₀ hcne h1
    have hrow : (row2 : ℚ) = row := by
      by_cases h : layout.y_positive_down
      · rw [if_pos h, if_pos h] at hy
        have h1 : (row2 : ℚ) * layout.row_pitch_mm = (row : ℚ) * layout.row_pitch_mm := by
          linarith
        exact mul_right_cancel₀ hrne h1
      · rw [if_neg h, if_neg h] at hy
        have h1 : (row2 : ℚ) * layout.row_pitch_mm = (row : ℚ) * layout.row_pitch_mm := by
          linarith
        exact mul_right_cancel₀ hrne h1
    exact ⟨Nat.cast_injective hrow, Nat.cast_injective hcol⟩

/-- Witness for claim C8 at the concrete 96-well layout, row 2, col 3. -/
theorem claim_C8_witness :
    (0 : ℚ) < layout96.col_pitch_mm ∧ (0 : ℚ) < layout96.row_pitch_mm
    ∧ (((wellXYmm layout96 2 3).1 - layout96.a1_x_mm) / layout96.col_pitch_mm
        = ((3 : Nat) : ℚ)
      ∧ (if layout96.y_positive_down
          then ((wellXYmm layout96 2 3).2 - layout96.a1_y_mm) / layout96.row_pitch_mm
          else -((wellXYmm layout96 2 3).2 - layout96.a1_y_mm) / layout96.row_pitch_mm)
          = ((2 : Nat) : ℚ)
      ∧ (∀ row2 col2 : Nat,
          wellXYmm layout96 row2 col2 = wellXYmm layout96 2 3 → row2 = 2 ∧ col2 = 3)) :=
  ⟨by norm_num [layout96], by norm_num [layout96],
   claim_C8 layout96 2 3 (by norm_num [layout96]) (by norm_num [layout96])⟩

/-- A one-well plan: well A1 with 10 µL of fluid A (the volume of the
claim C1 example). -/
def planA10 : List PlanEntry := [⟨some "A1", 0, 0, [("A", 10)]⟩]

/-- A one-well plan: well B2 with 7 µL of fluid A. -/
def planB7 : List PlanEntry := [⟨some "B2", 1, 1, [("A", 7)]⟩]

/-- Claim C1 (code bug): at the claim's own example — requested volume
10 µL, overdraw 2, fluid A configured — run_dosing never passes any
volume to a pump action.  The one-argument call hw.withdraw(pickup)
(dosingExecuter line 207) against hardwareInterfaces.withdraw(pump,
withdrawVol, ...) binds pickup = 12.0 to the pump parameter, leaves the
required withdrawVol argument missing and raises TypeError, so the run
aborts after the startup sequence and the approach moves of the first
cycle: no withdraw action, no infuse action, and nothing ever receives
the claimed 12.0344. -/
theorem claim_C1 :
    run_dosing FLUID_RESERVOIRS (127/2) (163/2) 9 9 2 planA10
      = ([.home, .mmUnits, .absoluteMode, .zSpeedLimit, .sleepEv (1/10),
          .linearZ TRAVEL_Z F_Z, .barrier]
          ++ moveToTrace (1883/50) 196 TRAVEL_Z TRAVEL_Z F_XY
          ++ dosePosTrace ASPIRATE_Z F_Z,
         some RunError.typeErrorMissingVolumeArg)
    ∧ withdrawVols (run_dosing FLUID_RESERVOIRS (127/2) (163/2) 9 9 2 planA10).1 = []
    ∧ infuseVols (run_dosing FLUID_RESERVOIRS (127/2) (163/2) 9 9 2 planA10).1 = [] := by
  norm_num [run_dosing, group_plan_by_fluid, addToGroup, missingReservoirList,
    assocLookup, FLUID_RESERVOIRS, planA10, runSeq, perWellRun, moveToTrace,
    dosePosTrace, withdrawVols, infuseVols]

/-- Claim C9 (code bug): the withdraw-dominates-infuse invariant of the
per-well cycle concerns volumes the pump calls never receive.  With
requested volume 7 and the negative overdraw -1 whose clamping the claim
describes, the first per-well cycle raises TypeError at the one-argument
hw.withdraw(pickup) call (pickup bound to the pump parameter, required
volume argument missing), so neither the withdraw nor the infuse action
is ever given a volume and the run aborts mid-cycle. -/
theorem claim_C9 :
    run_dosing FLUID_RESERVOIRS (127/2) (163/2) 9 9 (-1) planB7
      = ([.home, .mmUnits, .absoluteMode, .zSpeedLimit, .sleepEv (1/10),
          .linearZ TRAVEL_Z F_Z, .barrier]
          ++ moveToTrace (1883/50) 196 TRAVEL_Z TRAVEL_Z F_XY
          ++ dosePosTrace ASPIRATE_Z F_Z,
         some RunError.typeErrorMissingVolumeArg)
    ∧ withdrawVols (run_dosing FLUID_RESERVOIRS (127/2) (163/2) 9 9 (-1) planB7).1 = []
    ∧ infuseVols (run_dosing FLUID_RESERVOIRS (127/2) (163/2) 9 9 (-1) planB7).1 = [] := by
  norm_num [run_dosing, group_plan_by_fluid, addToGroup, missingReservoirList,
    assocLookup, FLUID_RESERVOIRS, planB7, runSeq, perWellRun, moveToTrace,
    dosePosTrace, withdrawVols, infuseVols]

/-- Counterexample to claim C6 as stated: after 1000 response lines none
of which begins with "ok" — far beyond any configured deadline — the
acknowledgment loop of hardwareInterfaces.command is still blocked
waiting for input; it has no deadline and no failure outcome (the
CmdOutcome type of the source has no error constructor to return). -/
theorem claim_C6_counterexample :
    commandRun (List.replicate 1000 "busy") = CmdOutcome.blocked := by
  have hb : startsWithOk "busy" = false := by decide
  suffices h : ∀ n, commandRun (List.replicate n "busy") = CmdOutcome.blocked from h 1000
  intro n
  induction n with
  | zero => rfl
  | succ k ih => simp [List.replicate_succ, commandRun, hb, ih]

/-- Claim C6 (amended): the wait for an acknowledgment line is unbounded:
the command call returns exactly when a line beginning with "ok" arrives,
and on a response stream with no such line it remains blocked forever —
there is no configured deadline and no CommunicationError failure. -/
theorem claim_C6 (lines : List String) :
    (commandRun lines = CmdOutcome.blocked ↔ ∀ l ∈ lines, startsWithOk l = false)
    ∧ (∀ n, commandRun lines = CmdOutcome.ack n →
        ∃ l ∈ lines, startsWithOk l = true) := by
  induction lines with
  | nil =>
    constructor
    · simp [commandRun]
    · intro n h
      simp [commandRun] at h
  | cons l ls ih =>
    obtain ⟨ih1, ih2⟩ := ih
    constructor
    · constructor
      · intro h x hx
        by_cases hl : startsWithOk l = true
        · exfalso
          simp [commandRun, hl] at h
        · have hlf : startsWithOk l = false := by simpa using hl
          rcases List.mem_cons.mp hx with hx | hx
          · subst hx; exact hlf
          · apply ih1.mp ?_ x hx
            simp only [commandRun, hlf, Bool.false_eq_true, if_false] at h
            cases hcr : commandRun ls with
            | ack m => rw [hcr] at h; exact absurd h (by simp)
            | blocked => rfl
      · intro hall
        have hlf : startsWithOk l = false := hall l (List.mem_cons_self l ls)
        have hls : commandRun ls = CmdOutcome.blocked :=
          ih1.mpr (fun x hx => hall x (List.mem_cons_of_mem l hx))
        simp [commandRun, hlf, hls]
    · intro n h
      by_cases hl : startsWithOk l = true
      · exact ⟨l, List.mem_cons_self l ls, hl⟩
      · have hlf : startsWithOk l = false := by simpa using hl
        simp only [commandRun, hlf, Bool.false_eq_true, if_false] at h
        cases hcr : commandRun ls with
        | ack m =>
          obtain ⟨x, hx, hxs⟩ := ih2 m hcr
          exact ⟨x, List.mem_cons_of_mem l hx, hxs⟩
        | blocked => rw [hcr] at h; exact absurd h (by simp)

/-- Witness for claim C6: a single non-ok response line leaves the loop
blocked. -/
theorem claim_C6_witness : commandRun ["busy"] = CmdOutcome.blocked :=
  (claim_C6 ["busy"]).1.mpr (by decide)

/-! ### Claims on the DosingExecutor sequencer -/

/-- A member of runCycles comes from a label with a reservoir and an entry
with positive volume of that label, and its trace is the per-well cycle. -/
theorem runCycles_mem {sources : List (String × Reservoir)} {layout : PlateLayout}
    {cfg : DosingConfig} {entries : List PlanEntry} {order : List String}
    {lab : String} {e : PlanEntry} {tr : List MEv}
    (h : (lab, e, tr) ∈ runCycles sources layout cfg entries order) :
    ∃ res, assocLookup sources lab = some res
      ∧ 0 < lookupVol e lab
      ∧ tr = perWellCycle cfg res (wellXYmm layout e.row e.col).1
          (wellXYmm layout e.row e.col).2 (lookupVol e lab) := by
  simp only [runCycles, List.mem_flatMap] at h
  obtain ⟨lab0, _, h2⟩ := h
  cases hl : assocLookup sources lab0 with
  | none => simp only [hl] at h2; simp at h2
  | some res0 =>
    simp only [hl, List.mem_flatMap] at h2
    obtain ⟨e0, _, h3⟩ := h2
    by_cases hv : lookupVol e0 lab0 ≤ 0
    · rw [if_pos hv] at h3
      simp at h3
    · rw [if_neg hv] at h3
      simp only [List.mem_singleton, Prod.mk.injEq] at h3
      obtain ⟨hA, hB, hC⟩ := h3
      subst hA
      subst hB
      subst hC
      exact ⟨res0, hl, not_le.mp hv, rfl⟩

/-- The per-well cycle with positive dwell delays, written out. -/
theorem perWellCycle_eq (cfg : DosingConfig) (res : Reservoir) (x y v : ℚ)
    (h1 : 0 < cfg.delay_after_withdraw_s) (h2 : 0 < cfg.delay_after_dispense_s) :
    perWellCycle cfg res x y v =
      [.goZ res.z_clear_mm cfg.z_feedrate,
       .goXY res.x_mm res.y_mm cfg.travel_feedrate,
       .goZ res.z_aspirate_mm cfg.z_feedrate,
       .pumpWithdraw v cfg.pump_withdraw_rate_ul_s,
       .dwellFor cfg.delay_after_withdraw_s,
       .goZ res.z_clear_mm cfg.z_feedrate,
       .swirly res.x_mm res.y_mm res.z_clear_mm cfg.reservoir_swirly_radius_mm
         cfg.reservoir_swirly_loops cfg.swirl_feedrate,
       .goZ cfg.plate_clear_z_mm cfg.z_feedrate,
       .goXY x y cfg.travel_feedrate,
       .goZ cfg.plate_dispense_z_mm cfg.z_feedrate,
       .pumpInfuse v cfg.pump_infuse_rate_ul_s,
       .dwellFor cfg.delay_after_dispense_s,
       .goZ cfg.plate_clear_z_mm cfg.z_feedrate] := by
  simp [perWellCycle, moveToReservoirClear, aspirateFromReservoir, swirlAtReservoir,
    moveToWellClear, dispenseIntoWell, h1, h2]

/-- Claim C2: every per-(fluid, well) cycle performed by the sequencer is
exactly: clear above reservoir, reservoir XY, descend to aspirate,
withdraw, dwell, ascend to clear, swirl, clear above well, well XY,
descend to dispense, infuse, dwell, ascend to clear; and every swirl of
the cycle is centered on the reservoir at its clear height, never above a
well. -/
theorem claim_C2 (sources : List (String × Reservoir)) (layout : PlateLayout)
    (cfg : DosingConfig) (entries : List PlanEntry) (order : List String)
    (lab : String) (e : PlanEntry) (tr : List MEv) (res : Reservoir)
    (hd1 : 0 < cfg.delay_after_withdraw_s) (hd2 : 0 < cfg.delay_after_dispense_s)
    (hmem : (lab, e, tr) ∈ runCycles sources layout cfg entries order)
    (hres : assocLookup sources lab = some res) :
    tr = [.goZ res.z_clear_mm cfg.z_feedrate,
          .goXY res.x_mm res.y_mm cfg.travel_feedrate,
          .goZ res.z_aspirate_mm cfg.z_feedrate,
          .pumpWithdraw (lookupVol e lab) cfg.pump_withdraw_rate_ul_s,
          .dwellFor cfg.delay_after_withdraw_s,
          .goZ res.z_clear_mm cfg.z_feedrate,
          .swirly res.x_mm res.y_mm res.z_clear_mm cfg.reservoir_swirly_radius_mm
            cfg.reservoir_swirly_loops cfg.swirl_feedrate,
          .goZ cfg.plate_clear_z_mm cfg.z_feedrate,
          .goXY (wellXYmm layout e.row e.col).1 (wellXYmm layout e.row e.col).2
            cfg.travel_feedrate,
          .goZ cfg.plate_dispense_z_mm cfg.z_feedrate,
          .pumpInfuse (lookupVol e lab) cfg.pump_infuse_rate_ul_s,
          .dwellFor cfg.delay_after_dispense_s,
          .goZ cfg.plate_clear_z_mm cfg.z_feedrate]
    ∧ (∀ cx cy z radius loops feed, MEv.swirly cx cy z radius loops feed ∈ tr →
        cx = res.x_mm ∧ cy = res.y_mm ∧ z = res.z_clear_mm) := by
  obtain ⟨res0, hl0, _, htr⟩ := runCycles_mem hmem
  rw [hres] at hl0
  obtain rfl : res = res0 := by injection hl0
  subst htr
  rw [perWellCycle_eq cfg res _ _ _ hd1 hd2]
  refine ⟨rfl, ?_⟩
  intro cx cy z radius loops feed hmem2
  simp only [List.mem_cons, List.not_mem_nil, or_false] at hmem2
  rcases hmem2 with h | h | h | h | h | h | h | h | h | h | h | h | h <;> simp_all

/-- One well entry used by several witnesses. -/
def entryA1 : PlanEntry := ⟨some "A1", 0, 0, [("A", 5)]⟩

/-- Witness for claim C2 at the default configuration, the example
reservoir and a one-well plan. -/
theorem claim_C2_witness :
    (0 : ℚ) < defaultConfig.delay_after_withdraw_s
    ∧ (0 : ℚ) < defaultConfig.delay_after_dispense_s
    ∧ ("A", entryA1,
        perWellCycle defaultConfig reservoirA (wellXYmm layout96 0 0).1
          (wellXYmm layout96 0 0).2 (lookupVol entryA1 "A"))
        ∈ runCycles [("A", reservoirA)] layout96 defaultConfig [entryA1] ["A"]
    ∧ assocLookup [("A", reservoirA)] "A" = some reservoirA
    ∧ (perWellCycle defaultConfig reservoirA (wellXYmm layout96 0 0).1
          (wellXYmm layout96 0 0).2 (lookupVol entryA1 "A")
        = [.goZ reservoirA.z_clear_mm defaultConfig.z_feedrate,
           .goXY reservoirA.x_mm reservoirA.y_mm defaultConfig.travel_feedrate,
           .goZ reservoirA.z_aspirate_mm defaultConfig.z_feedrate,
           .pumpWithdraw (lookupVol entryA1 "A") defaultConfig.pump_withdraw_rate_ul_s,
           .dwellFor defaultConfig.delay_after_withdraw_s,
           .goZ reservoirA.z_clear_mm defaultConfig.z_feedrate,
           .swirly reservoirA.x_mm reservoirA.y_mm reservoirA.z_clear_mm
             defaultConfig.reservoir_swirly_radius_mm defaultConfig.reservoir_swirly_loops
             defaultConfig.swirl_feedrate,
           .goZ defaultConfig.plate_clear_z_mm defaultConfig.z_feedrate,
           .goXY (wellXYmm layout96 0 0).1 (wellXYmm layout96 0 0).2
             defaultConfig.travel_feedrate,
           .goZ defaultConfig.plate_dispense_z_mm defaultConfig.z_feedrate,
           .pumpInfuse (lookupVol entryA1 "A") defaultConfig.pump_infuse_rate_ul_s,
           .dwellFor defaultConfig.delay_after_dispense_s,
           .goZ defaultConfig.plate_clear_z_mm defaultConfig.z_feedrate]
      ∧ (∀ cx cy z radius loops feed,
          MEv.swirly cx cy z radius loops feed
            ∈ perWellCycle defaultConfig reservoirA (wellXYmm layout96 0 0).1
                (wellXYmm layout96 0 0).2 (lookupVol entryA1 "A") →
          cx = reservoirA.x_mm ∧ cy = reservoirA.y_mm ∧ z = reservoirA.z_clear_mm)) := by
  have h1 : (0 : ℚ) < defaultConfig.delay_after_withdraw_s := by norm_num [defaultConfig]
  have h2 : (0 : ℚ) < defaultConfig.delay_after_dispense_s := by norm_num [defaultConfig]
  have h4 : assocLookup [("A", reservoirA)] "A" = some reservoirA := by
    simp [assocLookup]
  have h3 : ("A", entryA1,
      perWellCycle defaultConfig reservoirA (wellXYmm layout96 0 0).1
        (wellXYmm layout96 0 0).2 (lookupVol entryA1 "A"))
      ∈ runCycles [("A", reservoirA)] layout96 defaultConfig [entryA1] ["A"] := by
    norm_num [runCycles, groupWellsBySource, addToGroup, getGroup, assocLookup,
      lookupVol, entryA1]
  exact ⟨h1, h2, h3, h4,
    claim_C2 [("A", reservoirA)] layout96 defaultConfig [entryA1] ["A"] "A" entryA1 _
      reservoirA h1 h2 h3 h4⟩

/-- Membership in the missing-reservoir list: exactly the labels
referenced with positive volume that have no configured reservoir. -/
theorem mem_missingReservoirList (reservoirs : List (String × (ℚ × ℚ)))
    (plan : List PlanEntry) (lab : String) :
    lab ∈ missingReservoirList reservoirs (group_plan_by_fluid plan)
      ↔ ((∃ e ∈ plan, ∃ p ∈ e.volumes_uL, p.1 = lab ∧ 0 < p.2)
         ∧ assocLookup reservoirs lab = none) := by
  unfold missingReservoirList
  rw [List.mem_filter, mem_keys_group_plan_by_fluid]
  simp [Option.isNone_iff_eq_none]

/-- Claim C3 (amended, run_dosing path): whenever some fluid label is
referenced with positive volume but has no configured reservoir,
run_dosing raises the missing-reservoir error carrying the complete set
of missing labels, and the hardware trace is empty — the failure happens
before any hardware command. -/
theorem claim_C3 (reservoirs : List (String × (ℚ × ℚ)))
    (a1_x a1_y pitch_x pitch_y overdraw_uL : ℚ) (plan : List PlanEntry)
    (e0 : PlanEntry) (p0 : String × ℚ)
    (he0 : e0 ∈ plan) (hp0 : p0 ∈ e0.volumes_uL) (hpos : 0 < p0.2)
    (hmiss : assocLookup reservoirs p0.1 = none) :
    run_dosing reservoirs a1_x a1_y pitch_x pitch_y overdraw_uL plan
      = ([], some (RunError.missingReservoirs
          (missingReservoirList reservoirs (group_plan_by_fluid plan))))
    ∧ (∀ lab, lab ∈ missingReservoirList reservoirs (group_plan_by_fluid plan)
        ↔ ((∃ e ∈ plan, ∃ p ∈ e.volumes_uL, p.1 = lab ∧ 0 < p.2)
           ∧ assocLookup reservoirs lab = none)) := by
  have hkey : p0.1 ∈ (group_plan_by_fluid plan).map Prod.fst :=
    (mem_keys_group_plan_by_fluid plan p0.1).mpr ⟨e0, he0, p0, hp0, rfl, hpos⟩
  have hbyF : ¬(group_plan_by_fluid plan).isEmpty = true := by
    cases hgp : group_plan_by_fluid plan with
    | nil => rw [hgp] at hkey; simp at hkey
    | cons a l => simp
  have hmiss_mem : p0.1 ∈ missingReservoirList reservoirs (group_plan_by_fluid plan) :=
    (mem_missingReservoirList reservoirs plan p0.1).mpr
      ⟨⟨e0, he0, p0, hp0, rfl, hpos⟩, hmiss⟩
  have hne : ¬(missingReservoirList reservoirs (group_plan_by_fluid plan)).isEmpty
      = true := by
    cases hm : missingReservoirList reservoirs (group_plan_by_fluid plan) with
    | nil => rw [hm] at hmiss_mem; simp at hmiss_mem
    | cons a l => simp
  refine ⟨?_, mem_missingReservoirList reservoirs plan⟩
  simp only [run_dosing]
  rw [if_neg hbyF, if_neg hne]

/-- The raw one-well plan referencing fluids A (configured) and Z
(unconfigured), used against the DosingExecutor path. -/
def rawPlanAZ : List RawEntry :=
  [⟨some "A1", some 0, some 0, some [("A", 5), ("Z", 3)]⟩]

/-- Counterexample to claim C3 as stated for the DosingExecutor.run path
of dosing_run.py: fluid Z is referenced with positive volume and has no
reservoir, yet the run does not fail — it skips Z with a warning and
issues hardware commands for fluid A (the emitted trace is nonempty). -/
theorem claim_C3_counterexample :
    execRun true true [("A", reservoirA)] layout96 defaultConfig rawPlanAZ
      (some ["A", "Z"]) ≠ [] := by
  norm_num [execRun, parsePlan, rawPlanAZ, ensureConnected, runCycles,
    groupWellsBySource, addToGroup, getGroup, assocLookup, lookupVol, perWellCycle,
    moveToReservoirClear, aspirateFromReservoir, swirlAtReservoir, moveToWellClear,
    dispenseIntoWell, defaultConfig]
  exact ⟨fun h => Option.noConfusion h, fun h => List.noConfusion h⟩

/-- The one-well plan referencing only the unconfigured fluid Z. -/
def planZ : List PlanEntry := [⟨some "A1", 0, 0, [("Z", 5)]⟩]

/-- Witness for claim C3 at the concrete reservoir table of
dosingExecuter.py (only fluid A configured) and a plan using fluid Z. -/
theorem claim_C3_witness :
    (⟨some "A1", 0, 0, [("Z", 5)]⟩ : PlanEntry) ∈ planZ
    ∧ ("Z", (5 : ℚ)) ∈ (⟨some "A1", 0, 0, [("Z", 5)]⟩ : PlanEntry).volumes_uL
    ∧ (0 : ℚ) < ("Z", (5 : ℚ)).2
    ∧ assocLookup FLUID_RESERVOIRS ("Z", (5 : ℚ)).1 = none
    ∧ (run_dosing FLUID_RESERVOIRS (127/2) (163/2) 9 9 0 planZ
        = ([], some (RunError.missingReservoirs
            (missingReservoirList FLUID_RESERVOIRS (group_plan_by_fluid planZ))))
      ∧ (∀ lab, lab ∈ missingReservoirList FLUID_RESERVOIRS (group_plan_by_fluid planZ)
          ↔ ((∃ e ∈ planZ, ∃ p ∈ e.volumes_uL, p.1 = lab ∧ 0 < p.2)
             ∧ assocLookup FLUID_RESERVOIRS lab = none))) := by
  have h1 : (⟨some "A1", 0, 0, [("Z", 5)]⟩ : PlanEntry) ∈ planZ := by simp [planZ]
  have h2 : ("Z", (5 : ℚ)) ∈ (⟨some "A1", 0, 0, [("Z", 5)]⟩ : PlanEntry).volumes_uL := by
    simp
  have h3 : (0 : ℚ) < ("Z", (5 : ℚ)).2 := by norm_num
  have h4 : assocLookup FLUID_RESERVOIRS ("Z", (5 : ℚ)).1 = none := by
    simp [FLUID_RESERVOIRS, assocLookup]
  exact ⟨h1, h2, h3, h4,
    claim_C3 FLUID_RESERVOIRS (127/2) (163/2) 9 9 0 planZ _ _ h1 h2 h3 h4⟩

/-- Claim C4: for every GUI plan containing a well whose summed volumes
exceed the configured per-well maximum, begin_dosing aborts with the
validation error listing the offending wells and hands nothing to the
backend: the hardware trace of the pipeline is empty. -/
theorem claim_C4 (wells : List GuiWell) (max_vol : ℚ)
    (reservoirs : List (String × (ℚ × ℚ))) (a1_x a1_y pitch_x pitch_y overdraw_uL : ℚ)
    (w0 : GuiWell) (hw : w0 ∈ wells) (hover : max_vol < total_volume w0) :
    begin_dosing wells max_vol reservoirs a1_x a1_y pitch_x pitch_y overdraw_uL
      = ([], some (GuiErr.overMax (overMaxErrors wells max_vol)))
    ∧ (w0.well_id, total_volume w0) ∈ overMaxErrors wells max_vol := by
  have hmem : (w0.well_id, total_volume w0) ∈ overMaxErrors wells max_vol :=
    List.mem_filterMap.mpr ⟨w0, hw, by rw [if_pos hover]⟩
  have hne : ¬(overMaxErrors wells max_vol).isEmpty = true := by
    cases hm : overMaxErrors wells max_vol with
    | nil => rw [hm] at hmem; simp at hmem
    | cons a l => simp
  constructor
  · simp only [begin_dosing]
    rw [if_neg hne]
  · exact hmem

/-- The over-maximum well of the spec scenario: volumes A 300 and C 5,
total 305 against the default maximum 200. -/
def wellOver : GuiWell := ⟨"A1", 0, 0, [("A", 300), ("C", 5)]⟩

/-- Witness for claim C4: well A1 with total 305 against maximum 200
aborts the pipeline with zero hardware events. -/
theorem claim_C4_witness :
    wellOver ∈ [wellOver]
    ∧ (200 : ℚ) < total_volume wellOver
    ∧ (begin_dosing [wellOver] 200 FLUID_RESERVOIRS (127/2) (163/2) 9 9 0
        = ([], some (GuiErr.overMax (overMaxErrors [wellOver] 200)))
      ∧ (wellOver.well_id, total_volume wellOver) ∈ overMaxErrors [wellOver] 200) := by
  have h1 : wellOver ∈ [wellOver] := List.mem_singleton.mpr rfl
  have h2 : (200 : ℚ) < total_volume wellOver := by norm_num [total_volume, wellOver]
  exact ⟨h1, h2, claim_C4 [wellOver] 200 FLUID_RESERVOIRS (127/2) (163/2) 9 9 0
    wellOver h1 h2⟩

/-- Projecting the (fluid, well) pairs out of the per-well loop of one
fluid whose wells all carry positive volume of it. -/
theorem flatMap_cycle_map (lab : String) (cfg : DosingConfig) (layout : PlateLayout)
    (res : Reservoir) (l : List PlanEntry) (hpos : ∀ e ∈ l, 0 < lookupVol e lab) :
    (l.flatMap (fun e =>
        if lookupVol e lab ≤ 0 then []
        else [(lab, e, perWellCycle cfg res (wellXYmm layout e.row e.col).1
            (wellXYmm layout e.row e.col).2 (lookupVol e lab))])).map
      (fun c => (c.1, c.2.1))
      = l.map (fun e => (lab, e)) := by
  induction l with
  | nil => rfl
  | cons e rest ih =>
    have hv := hpos e (List.mem_cons_self e rest)
    simp only [List.flatMap_cons, List.map_append, if_neg (not_le.mpr hv)]
    rw [ih (fun q hq => hpos q (List.mem_cons_of_mem e hq))]
    simp

/-- Claim C7: the (fluid, well) pairs processed by the sequencer are: the
fluids of the explicitly supplied order — or of the inferred order when
none is given — in that order, and within each fluid exactly the entries
with positive volume of that fluid, sorted ascending by (row, col); one
fluid completes before the next begins (the trace is the concatenation of
the per-fluid blocks).  The inferred order is sorted ascending and lists
exactly the labels appearing in the plan. -/
theorem claim_C7 (sources : List (String × Reservoir)) (layout : PlateLayout)
    (cfg : DosingConfig) (entries : List PlanEntry) (orderOpt : Option (List String))
    (hnd : ∀ e ∈ entries, (e.volumes_uL.map Prod.fst).Nodup)
    (hres : ∀ lab ∈ orderOpt.getD (inferSourcesOrder entries),
      (assocLookup sources lab).isSome = true) :
    ((runCycles sources layout cfg entries (orderOpt.getD (inferSourcesOrder entries))).map
        (fun c => (c.1, c.2.1))
      = (orderOpt.getD (inferSourcesOrder entries)).flatMap (fun lab =>
          (List.insertionSort entryLE
            (entries.filter (fun e => decide (0 < lookupVol e lab)))).map
            (fun e => (lab, e))))
    ∧ (∀ lab, List.Sorted entryLE
        (List.insertionSort entryLE
          (entries.filter (fun e => decide (0 < lookupVol e lab)))))
    ∧ (∀ lab, (List.insertionSort entryLE
        (entries.filter (fun e => decide (0 < lookupVol e lab)))).Perm
        (entries.filter (fun e => decide (0 < lookupVol e lab))))
    ∧ List.Sorted (fun a b : String => a ≤ b) (inferSourcesOrder entries)
    ∧ (∀ lab, lab ∈ inferSourcesOrder entries
        ↔ ∃ e ∈ entries, ∃ p ∈ e.volumes_uL, p.1 = lab) := by
  refine ⟨?_, fun lab => List.sorted_insertionSort entryLE _,
    fun lab => List.perm_insertionSort entryLE _,
    List.sorted_insertionSort _ _, fun lab => ?_⟩
  · unfold runCycles
    rw [List.map_flatMap]
    apply List.flatMap_congr
    intro lab hlab
    obtain ⟨res, hres2⟩ := Option.isSome_iff_exists.mp (hres lab hlab)
    simp only [hres2]
    rw [getGroup_groupWellsBySource entries lab hnd]
    apply flatMap_cycle_map
    intro e he
    have hmem : e ∈ entries.filter (fun e => decide (0 < lookupVol e lab)) :=
      (List.perm_insertionSort entryLE _).mem_iff.mp he
    exact of_decide_eq_true (List.mem_filter.mp hmem).2
  · unfold inferSourcesOrder
    rw [(List.perm_insertionSort _ _).mem_iff, List.mem_dedup, List.mem_flatMap]
    constructor
    · rintro ⟨e, he, hmem⟩
      rw [List.mem_map] at hmem
      obtain ⟨p, hp, hp2⟩ := hmem
      exact ⟨e, he, p, hp, hp2⟩
    · rintro ⟨e, he, p, hp, hp2⟩
      exact ⟨e, he, List.mem_map.mpr ⟨p, hp, hp2⟩⟩

/-- Witness for claim C7 with an explicit order, one configured source and
a one-well plan. -/
theorem claim_C7_witness :
    (∀ e ∈ [entryA1], (e.volumes_uL.map Prod.fst).Nodup)
    ∧ (∀ lab ∈ (some ["A"]).getD (inferSourcesOrder [entryA1]),
        (assocLookup [("A", reservoirA)] lab).isSome = true)
    ∧ (((runCycles [("A", reservoirA)] layout96 defaultConfig [entryA1]
          ((some ["A"]).getD (inferSourcesOrder [entryA1]))).map
            (fun c => (c.1, c.2.1))
        = ((some ["A"]).getD (inferSourcesOrder [entryA1])).flatMap (fun lab =>
            (List.insertionSort entryLE
              ([entryA1].filter (fun e => decide (0 < lookupVol e lab)))).map
              (fun e => (lab, e))))
      ∧ (∀ lab, List.Sorted entryLE
          (List.insertionSort entryLE
            ([entryA1].filter (fun e => decide (0 < lookupVol e lab)))))
      ∧ (∀ lab, (List.insertionSort entryLE
          ([entryA1].filter (fun e => decide (0 < lookupVol e lab)))).Perm
          ([entryA1].filter (fun e => decide (0 < lookupVol e lab))))
      ∧ List.Sorted (fun a b : String => a ≤ b) (inferSourcesOrder [entryA1])
      ∧ (∀ lab, lab ∈ inferSourcesOrder [entryA1]
          ↔ ∃ e ∈ [entryA1], ∃ p ∈ e.volumes_uL, p.1 = lab)) := by
  have h1 : ∀ e ∈ [entryA1], (e.volumes_uL.map Prod.fst).Nodup := by
    simp [entryA1]
  have h2 : ∀ lab ∈ (some ["A"]).getD (inferSourcesOrder [entryA1]),
      (assocLookup [("A", reservoirA)] lab).isSome = true := by
    simp [assocLookup]
  exact ⟨h1, h2,
    claim_C7 [("A", reservoirA)] layout96 defaultConfig [entryA1] (some ["A"]) h1 h2⟩

/-- Claim C10: a plan with no positive volume makes run_dosing return
normally with an empty hardware trace before the startup sequence, and a
raw plan that parses to no valid entries makes DosingExecutor.run return
before any connection attempt, with an empty trace. -/
theorem claim_C10 (reservoirs : List (String × (ℚ × ℚ)))
    (a1_x a1_y pitch_x pitch_y overdraw_uL : ℚ) (plan : List PlanEntry)
    (pumpConnected moverConnected : Bool) (sources : List (String × Reservoir))
    (layout : PlateLayout) (cfg : DosingConfig) (rawPlan : List RawEntry)
    (orderOpt : Option (List String)) :
    ((∀ e ∈ plan, ∀ p ∈ e.volumes_uL, p.2 ≤ 0) →
      run_dosing reservoirs a1_x a1_y pitch_x pitch_y overdraw_uL plan = ([], none))
    ∧ (parsePlan rawPlan = [] →
      execRun pumpConnected moverConnected sources layout cfg rawPlan orderOpt = []) := by
  constructor
  · intro h
    simp only [run_dosing, group_plan_by_fluid_eq_nil plan h]
    rfl
  · intro h
    simp only [execRun, h]
    rfl

/-- A plan whose only entry carries zero volume of fluid A. -/
def planZero : List PlanEntry := [⟨some "A1", 0, 0, [("A", 0)]⟩]

/-- A raw plan whose only entry is missing the row key. -/
def rawNoRow : List RawEntry := [⟨some "A1", none, some 0, some []⟩]

/-- Witness for claim C10: the zero-volume plan produces no trace and no
error in run_dosing, and the row-less raw plan produces no events at all
in DosingExecutor.run. -/
theorem claim_C10_witness :
    run_dosing FLUID_RESERVOIRS (127/2) (163/2) 9 9 0 planZero = ([], none)
    ∧ execRun false false [("A", reservoirA)] layout96 defaultConfig rawNoRow none
      = [] :=
  ⟨(claim_C10 FLUID_RESERVOIRS (127/2) (163/2) 9 9 0 planZero false false
      [("A", reservoirA)] layout96 defaultConfig rawNoRow none).1
      (by norm_num [planZero]),
   (claim_C10 FLUID_RESERVOIRS (127/2) (163/2) 9 9 0 planZero false false
      [("A", reservoirA)] layout96 defaultConfig rawNoRow none).2 rfl⟩

end EnderDoser
